import Mathlib

/-!
Verification of the query-translation layer of the bitty database shim
(`bitty.py`).  The embedding models the pure compilation core: the filter
compiler `BaseSQLAdapter._build_where_clause`, the statement builders
`_build_insert_query` and `_build_update_query`, the facade entry points
`add` and `update` up to (but not including) statement execution, and the
column-registry lookup `PostgresAdapter._get_column_names` against an
abstract database answer.

Python dictionaries are modelled as association lists `List (String × Value)`
whose key lists are `Nodup`; Python string comparison (as used by `sorted`)
is code-point lexicographic order, modelled by `listLe` on `List Char`.
Failures raised by the Python code are modelled with `Except`:
`BittyError.queryError` for the library's own `QueryError`, and
`BittyError.typeError` for the `TypeError` the interpreter raises when a
non-iterable value reaches an `__in` lookup.
-/

/-- Code-point lexicographic order on char lists: Python string comparison. -/
def listLe : List Char → List Char → Bool
  | [], _ => true
  | _ :: _, [] => false
  | a :: as, b :: bs =>
    if a.toNat < b.toNat then true
    else if b.toNat < a.toNat then false
    else listLe as bs

def strLe (a b : String) : Bool := listLe a.data b.data

/-- Python's `sorted` on a list of strings. -/
def sortKeys (keys : List String) : List String :=
  List.insertionSort (fun a b => strLe a b = true) keys

/-- Python's `sep.join(parts)`. -/
def pyJoin (sep : String) : List String → String
  | [] => ""
  | [part] => part
  | part :: rest => part ++ (sep ++ pyJoin sep rest)

/-- A scalar Python value as used for columns and bind parameters. -/
inductive Scalar where
  | sInt : Int → Scalar
  | sStr : String → Scalar
deriving DecidableEq

/-- A Python value passed as a field or filter value: a scalar or a list of
scalars (the sequence form used by `__in` lookups). -/
inductive Value where
  | scalar : Scalar → Value
  | vList : List Scalar → Value
deriving DecidableEq

def vs (s : String) : Value := .scalar (.sStr s)
def vi (i : Int) : Value := .scalar (.sInt i)
def vl (l : List Scalar) : Value := .vList l

/-- Python `repr` of a scalar, used when a list is stringified. -/
def pyRepr : Scalar → String
  | .sInt i => toString i
  | .sStr s => "\x27" ++ s ++ "\x27"

/-- Python `str()` of a value, as applied by the `"%s%%" % value` formatting
in the LIKE branches. -/
def pyStr : Value → String
  | .scalar (.sInt i) => toString i
  | .scalar (.sStr s) => s
  | .vList l => "[" ++ pyJoin ", " (l.map pyRepr) ++ "]"

/-- Failure modes of the compilation core: bitty's own `QueryError`, and the
interpreter-level `TypeError` raised when `__in` iterates a non-iterable. -/
inductive BittyError where
  | queryError (msg : String)
  | typeError
deriving DecidableEq

instance {ε α : Type} [DecidableEq ε] [DecidableEq α] : DecidableEq (Except ε α) :=
  fun a b =>
    match a, b with
    | .ok x, .ok y => if h : x = y then isTrue (by rw [h]) else isFalse (by simp [h])
    | .error x, .error y => if h : x = y then isTrue (by rw [h]) else isFalse (by simp [h])
    | .ok _, .error _ => isFalse (by simp)
    | .error _, .ok _ => isFalse (by simp)

/-- The per-backend data of `BaseSQLAdapter` and its subclasses: the
placeholder token `BINDING_OP` and the `FILTER_OPTIONS` table mapping an
operator suffix to the clause template (`"%s < %s" % (column, binding_op)`
is modelled as the function applied to the column and the placeholder). -/
structure SQLAdapter where
  BINDING_OP : String
  FILTER_OPTIONS : String → Option (String → String → String)

def baseFilterOptions (op : String) : Option (String → String → String) :=
  if op = "lt" then some (fun column bind => column ++ " < " ++ bind)
  else if op = "lte" then some (fun column bind => column ++ " <= " ++ bind)
  else if op = "gt" then some (fun column bind => column ++ " > " ++ bind)
  else if op = "gte" then some (fun column bind => column ++ " >= " ++ bind)
  else if op = "startswith" then some (fun column bind => column ++ " LIKE " ++ bind)
  else if op = "endswith" then some (fun column bind => column ++ " LIKE " ++ bind)
  else if op = "contains" then some (fun column bind => column ++ " LIKE " ++ bind)
  else none

def sqliteFilterOptions (op : String) : Option (String → String → String) :=
  if op = "lt" then some (fun column bind => column ++ " < " ++ bind)
  else if op = "lte" then some (fun column bind => column ++ " <= " ++ bind)
  else if op = "gt" then some (fun column bind => column ++ " > " ++ bind)
  else if op = "gte" then some (fun column bind => column ++ " >= " ++ bind)
  else if op = "startswith" then
    some (fun column bind => column ++ " LIKE " ++ bind ++ " ESCAPE \x27\x5c\x27")
  else if op = "endswith" then
    some (fun column bind => column ++ " LIKE " ++ bind ++ " ESCAPE \x27\x5c\x27")
  else if op = "contains" then
    some (fun column bind => column ++ " LIKE " ++ bind ++ " ESCAPE \x27\x5c\x27")
  else none

def BaseSQLAdapter : SQLAdapter := ⟨"%s", baseFilterOptions⟩

def SQLiteAdapter : SQLAdapter := ⟨"?", sqliteFilterOptions⟩

def PostgresAdapter : SQLAdapter := BaseSQLAdapter

def MySQLAdapter : SQLAdapter := BaseSQLAdapter

/-- Python `chars.split("__")` on the character list: scan left to right,
splitting greedily at each non-overlapping occurrence of two underscores. -/
def splitSep : List Char → List (List Char)
  | [] => [[]]
  | [c] => [[c]]
  | a :: b :: rest =>
    if a = '_' ∧ b = '_' then [] :: splitSep rest
    else
      match splitSep (b :: rest) with
      | [] => [[a]]
      | part :: parts => (a :: part) :: parts

/-- `column_spec.split("__")` from `_build_where_clause`. -/
def splitKey (s : String) : List String := (splitSep s.data).map (fun part => ⟨part⟩)

/-- `kwargs[key]`: dictionary indexing.  The default is never reached when the
key comes from the dictionary's own key list. -/
def lookupVal (kwargs : List (String × Value)) (key : String) : Value :=
  (List.lookup key kwargs).getD (vi 0)

/-- One iteration of the `for column_spec in keys` loop body of
`BaseSQLAdapter._build_where_clause`: the clause text and the bind values
contributed by one filter key. -/
def buildClause (A : SQLAdapter) (column_spec : String) (value : Value) :
    Except BittyError (String × List Value) :=
  let column_info := splitKey column_spec
  if 2 < column_info.length then
    .error (.queryError (column_spec ++ " is not a supported lookup. Only one set of __ is allowed."))
  else
    match column_info with
    | [column] => .ok (column ++ " = " ++ A.BINDING_OP, [value])
    | [column, op] =>
      if op = "in" then
        match value with
        | .vList elems =>
          .ok (column ++ " IN (" ++ pyJoin ", " (elems.map (fun _ => A.BINDING_OP)) ++ ")",
               elems.map Value.scalar)
        | .scalar (.sStr s) =>
          .ok (column ++ " IN (" ++ pyJoin ", " (s.data.map (fun _ => A.BINDING_OP)) ++ ")",
               s.data.map (fun c => vs ⟨[c]⟩))
        | .scalar (.sInt _) => .error .typeError
      else
        match A.FILTER_OPTIONS op with
        | some fmt =>
          let clause := fmt column A.BINDING_OP
          let value :=
            if op = "startswith" ∨ op = "contains" then vs (pyStr value ++ "%") else value
          let value :=
            if op = "endswith" ∨ op = "contains" then vs ("%" ++ pyStr value) else value
          .ok (clause, [value])
        | none => .ok (column ++ " = " ++ A.BINDING_OP, [value])
    | _ => .error .typeError

/-- The whole `for column_spec in keys` loop: clauses and bind parameters are
accumulated in key order, and any raised error aborts the call with no
partial result. -/
def whereLoop (A : SQLAdapter) (kwargs : List (String × Value)) :
    List String → Except BittyError (List (String × List Value))
  | [] => .ok []
  | column_spec :: rest =>
    match buildClause A column_spec (lookupVal kwargs column_spec) with
    | .error e => .error e
    | .ok r =>
      match whereLoop A kwargs rest with
      | .error e => .error e
      | .ok rs => .ok (r :: rs)

/-- `BaseSQLAdapter._build_where_clause`. -/
def build_where_clause (A : SQLAdapter) (kwargs : List (String × Value)) :
    Except BittyError (String × List Value) :=
  if kwargs = [] then .ok ("", [])
  else
    match whereLoop A kwargs (sortKeys (kwargs.map Prod.fst)) with
    | .error e => .error e
    | .ok results =>
      .ok ("WHERE " ++ pyJoin " AND " (results.map Prod.fst),
           (results.map Prod.snd).flatten)

/-- `BaseSQLAdapter._build_insert_query`. -/
def build_insert_query (A : SQLAdapter) (table : String) (kwargs : List (String × Value)) :
    String × List Value :=
  let column_names := sortKeys (kwargs.map Prod.fst)
  let values := column_names.map (lookupVal kwargs)
  let binds := values.map (fun _ => A.BINDING_OP)
  ("INSERT INTO " ++ table ++ " (" ++ pyJoin ", " column_names ++ ") VALUES (" ++
     pyJoin ", " binds ++ ")",
   values)

/-- `BaseSQLAdapter._build_update_query`. -/
def build_update_query (A : SQLAdapter) (table : String) (pk : Value)
    (kwargs : List (String × Value)) : String × List Value :=
  let column_names := sortKeys (kwargs.map Prod.fst)
  let values := column_names.map (lookupVal kwargs) ++ [pk]
  let setParts := column_names.map (fun name => name ++ " = " ++ A.BINDING_OP)
  ("UPDATE " ++ table ++ " SET " ++ pyJoin ", " setParts ++ " WHERE id = " ++ A.BINDING_OP,
   values)

/-- `BaseSQLAdapter.add` up to statement execution: the guard raises
`QueryError` on an empty field mapping before any statement is built; on the
success path the compiled insert statement is handed to `raw`. -/
def add (A : SQLAdapter) (table : String) (kwargs : List (String × Value)) :
    Except BittyError (String × List Value) :=
  if kwargs.length = 0 then
    .error (.queryError "The add method requires at least one pair of kwargs.")
  else .ok (build_insert_query A table kwargs)

/-- `BaseSQLAdapter.update` up to statement execution: there is no guard, the
compiled update statement is always handed to `raw`. -/
def update (A : SQLAdapter) (table : String) (pk : Value)
    (kwargs : List (String × Value)) : Except BittyError (String × List Value) :=
  .ok (build_update_query A table pk kwargs)

/-- The cursor returned by `raw` for an introspection query, carrying the
rows `fetchall` would produce.  Each row of the Postgres catalog query holds
the column name in position 0. -/
structure Cursor where
  rows : List (List String)

/-- Python truthiness of a cursor object: DB-API cursors define neither
`__bool__` nor `__len__`, so `bool(cursor)` is always `True`. -/
def cursorBool (_ : Cursor) : Bool := true

/-- `PostgresAdapter._get_column_names`: the cached column registry.  `tables`
is the `self._tables` cache and `result` the cursor the catalog introspection
query returns for this table.  The result pairs the returned column list with
the updated cache. -/
def pg_get_column_names (tables : List (String × List String)) (table : String)
    (result : Cursor) : Except BittyError (List String × List (String × List String)) :=
  match List.lookup table tables with
  | some cols => .ok (cols, tables)
  | none =>
    if cursorBool result = false then
      .error (.queryError ("Table " ++ table ++ " was not found or has no columns."))
    else
      let cols := sortKeys (result.rows.map (fun column => column.headD ""))
      .ok (cols, tables ++ [(table, cols)])

/-- Number of occurrences of the substring `"%s"` (the base adapter's
placeholder token) in a character list; `"%s"` cannot overlap itself, so
counting start positions counts occurrences. -/
def countPS : List Char → Nat
  | [] => 0
  | [_] => 0
  | a :: b :: rest => (if a = '%' ∧ b = 's' then 1 else 0) + countPS (b :: rest)

/-- Whether a compilation result is a raised `QueryError`. -/
def resultQueryError (r : Except BittyError (String × List Value)) : Bool :=
  match r with
  | .error (.queryError _) => true
  | _ => false

/-! Helper lemmas. -/

theorem data_append (a b : String) : (a ++ b).data = a.data ++ b.data := by
  cases a; cases b; rfl

theorem string_data_inj {a b : String} (h : a.data = b.data) : a = b := by
  cases a; cases b; cases h; rfl

theorem char_toNat_inj {a b : Char} (h : a.toNat = b.toNat) : a = b := by
  apply Char.ext
  apply UInt32.ext
  exact h

theorem listLe_total (a b : List Char) : listLe a b = true ∨ listLe b a = true := by
  induction a generalizing b with
  | nil => left; rfl
  | cons x xs ih =>
    cases b with
    | nil => right; rfl
    | cons y ys =>
      simp only [listLe]
      rcases Nat.lt_trichotomy x.toNat y.toNat with h | h | h
      · left; simp [h]
      · rcases ih ys with h2 | h2
        · left; simp [h, h2]
        · right; simp [h.symm, h2]
      · right; simp [h]

theorem listLe_trans (a b c : List Char) (h1 : listLe a b = true) (h2 : listLe b c = true) :
    listLe a c = true := by
  induction a generalizing b c with
  | nil => rfl
  | cons x xs ih =>
    cases b with
    | nil => simp [listLe] at h1
    | cons y ys =>
      cases c with
      | nil => simp [listLe] at h2
      | cons z zs =>
        simp only [listLe] at h1 h2 ⊢
        rcases Nat.lt_trichotomy x.toNat z.toNat with h | h | h
        · simp [h]
        · simp only [h, lt_irrefl, if_false, if_neg (lt_irrefl _)]
          rcases Nat.lt_trichotomy x.toNat y.toNat with hxy | hxy | hxy
          · rcases Nat.lt_trichotomy y.toNat z.toNat with hyz | hyz | hyz
            · omega
            · omega
            · simp [if_neg (by omega : ¬ y.toNat < z.toNat),
                if_pos (by omega : z.toNat < y.toNat)] at h2
          · rcases Nat.lt_trichotomy y.toNat z.toNat with hyz | hyz | hyz
            · omega
            · simp only [if_neg (by omega : ¬ x.toNat < y.toNat),
                if_neg (by omega : ¬ y.toNat < x.toNat)] at h1
              simp only [if_neg (by omega : ¬ y.toNat < z.toNat),
                if_neg (by omega : ¬ z.toNat < y.toNat)] at h2
              exact ih ys zs h1 h2
            · omega
          · simp [if_neg (by omega : ¬ x.toNat < y.toNat),
              if_pos (by omega : y.toNat < x.toNat)] at h1
        · exfalso
          rcases Nat.lt_trichotomy x.toNat y.toNat with hxy | hxy | hxy
          · rcases Nat.lt_trichotomy y.toNat z.toNat with hyz | hyz | hyz
            · omega
            · omega
            · simp [if_neg (by omega : ¬ y.toNat < z.toNat),
                if_pos (by omega : z.toNat < y.toNat)] at h2
          · simp [if_neg (by omega : ¬ y.toNat < z.toNat),
              if_pos (by omega : z.toNat < y.toNat)] at h2
          · simp [if_neg (by omega : ¬ x.toNat < y.toNat),
              if_pos (by omega : y.toNat < x.toNat)] at h1

theorem listLe_antisymm (a b : List Char) (h1 : listLe a b = true) (h2 : listLe b a = true) :
    a = b := by
  induction a generalizing b with
  | nil =>
    cases b with
    | nil => rfl
    | cons y ys => simp [listLe] at h2
  | cons x xs ih =>
    cases b with
    | nil => simp [listLe] at h1
    | cons y ys =>
      simp only [listLe] at h1 h2
      rcases Nat.lt_trichotomy x.toNat y.toNat with h | h | h
      · simp [if_neg (by omega : ¬ y.toNat < x.toNat), if_pos h] at h2
      · simp only [if_neg (by omega : ¬ x.toNat < y.toNat),
          if_neg (by omega : ¬ y.toNat < x.toNat)] at h1 h2
        rw [char_toNat_inj h, ih ys h1 h2]
      · simp [if_neg (by omega : ¬ x.toNat < y.toNat), if_pos h] at h1

theorem strLe_refl (a : String) : strLe a a = true := by
  rcases listLe_total a.data a.data with h | h <;> exact h

theorem sortKeys_sorted (l : List String) :
    List.Sorted (fun a b => strLe a b = true) (sortKeys l) := by
  haveI : IsTotal String (fun a b => strLe a b = true) := ⟨fun a b => listLe_total a.data b.data⟩
  haveI : IsTrans String (fun a b => strLe a b = true) :=
    ⟨fun a b c h1 h2 => listLe_trans a.data b.data c.data h1 h2⟩
  exact List.sorted_insertionSort _ _

theorem sortKeys_perm (l : List String) : (sortKeys l).Perm l :=
  List.perm_insertionSort _ _

theorem sortKeys_eq_of_perm {l₁ l₂ : List String} (h : l₁.Perm l₂) :
    sortKeys l₁ = sortKeys l₂ := by
  haveI : IsAntisymm String (fun a b => strLe a b = true) :=
    ⟨fun a b h1 h2 => string_data_inj (listLe_antisymm a.data b.data h1 h2)⟩
  apply List.eq_of_perm_of_sorted (r := fun a b => strLe a b = true)
  · exact ((sortKeys_perm l₁).trans h).trans (sortKeys_perm l₂).symm
  · exact sortKeys_sorted _
  · exact sortKeys_sorted _

theorem lookup_eq_of_perm {kw1 kw2 : List (String × Value)} (h : kw1.Perm kw2)
    (hnd : (kw1.map Prod.fst).Nodup) (k : String) :
    List.lookup k kw1 = List.lookup k kw2 := by
  induction h with
  | nil => rfl
  | cons p hperm ih =>
    simp only [List.map_cons, List.nodup_cons] at hnd
    cases p with
    | mk a v =>
      by_cases hk : k == a
      · simp [List.lookup, hk]
      · simp only [List.lookup, hk]
        exact ih hnd.2
  | swap x y l =>
    cases x with
    | mk a v =>
      cases y with
      | mk b w =>
        simp only [List.map_cons, List.nodup_cons, List.mem_cons] at hnd
        have hba : b ≠ a := fun hc => hnd.1 (Or.inl hc)
        by_cases hkb : k == b <;> by_cases hka : k == a
        · exact absurd ((eq_of_beq hkb).symm.trans (eq_of_beq hka)) hba
        · simp [List.lookup, hkb, hka]
        · simp [List.lookup, hkb, hka]
        · simp [List.lookup, hkb, hka]
  | trans h1 h2 ih1 ih2 =>
    rw [ih1 hnd]
    apply ih2
    exact ((h1.map Prod.fst).nodup_iff).mp hnd

theorem lookupVal_eq_of_perm {kw1 kw2 : List (String × Value)} (h : kw1.Perm kw2)
    (hnd : (kw1.map Prod.fst).Nodup) : lookupVal kw1 = lookupVal kw2 := by
  funext k
  unfold lookupVal
  rw [lookup_eq_of_perm h hnd k]

theorem whereLoop_congr (A : SQLAdapter) {kw1 kw2 : List (String × Value)}
    (h : lookupVal kw1 = lookupVal kw2) (keys : List String) :
    whereLoop A kw1 keys = whereLoop A kw2 keys := by
  induction keys with
  | nil => rfl
  | cons k rest ih => simp only [whereLoop, h, ih]

theorem whereLoop_length (A : SQLAdapter) (kw : List (String × Value)) (keys : List String)
    (results : List (String × List Value)) (h : whereLoop A kw keys = .ok results) :
    results.length = keys.length := by
  induction keys generalizing results with
  | nil =>
    simp only [whereLoop] at h
    cases h
    rfl
  | cons k rest ih =>
    simp only [whereLoop] at h
    cases hc : buildClause A k (lookupVal kw k) with
    | error e => rw [hc] at h; cases h
    | ok r =>
      rw [hc] at h
      cases hr : whereLoop A kw rest with
      | error e => rw [hr] at h; cases h
      | ok rs =>
        rw [hr] at h
        cases h
        simp [ih rs hr]

theorem build_where_clause_eq_of_perm (A : SQLAdapter) {kw1 kw2 : List (String × Value)}
    (hperm : kw1.Perm kw2) (hnd : (kw1.map Prod.fst).Nodup) :
    build_where_clause A kw1 = build_where_clause A kw2 := by
  unfold build_where_clause
  by_cases h1 : kw1 = []
  · have h2 : kw2 = [] := by
      subst h1
      exact hperm.symm.eq_nil
    simp [h1, h2]
  · have h2 : kw2 ≠ [] := by
      intro hc
      subst hc
      exact h1 hperm.eq_nil
    rw [if_neg h1, if_neg h2]
    rw [sortKeys_eq_of_perm (hperm.map Prod.fst),
      whereLoop_congr A (lookupVal_eq_of_perm hperm hnd)]

/-! Claim theorems. -/

/-- Claim C8: for every adapter and table name, `add` with an empty field
mapping fails with `QueryError`; the guard fires before `_build_insert_query`
is invoked, so no SQL statement is built or executed. -/
theorem add_empty_fields_query_error (A : SQLAdapter) (table : String) :
    add A table [] =
      .error (.queryError "The add method requires at least one pair of kwargs.") := rfl

/-- Claim C10: for every adapter, table name and primary-key value, the
update compiler accepts an empty field mapping without `QueryError`,
producing `UPDATE <table> SET  WHERE id = <placeholder>` (empty SET list)
with bind list `[pk]`, and `update` proceeds with it. -/
theorem update_empty_fields_ok (A : SQLAdapter) (table : String) (pk : Value) :
    update A table pk [] =
      .ok ("UPDATE " ++ table ++ " SET  WHERE id = " ++ A.BINDING_OP, [pk]) := by
  unfold update build_update_query sortKeys
  simp only [List.map_nil, List.insertionSort, pyJoin]
  congr 2
  apply string_data_inj
  have h : " SET ".data ++ " WHERE id = ".data = " SET  WHERE id = ".data := rfl
  have h0 : ("" : String).data = [] := rfl
  simp [data_append, h0, ← h]

/-- Claim C9 (code bug): on a cache miss for a table absent from the
database, the Postgres introspection query returns zero rows, yet
`_get_column_names` returns (and caches) an empty column list instead of
raising `QueryError`: the `if not result` check tests the truthiness of the
cursor object, which is always `True`. -/
theorem pg_missing_table_no_query_error :
    pg_get_column_names [] "missing" ⟨[]⟩ = .ok ([], [("missing", [])]) ∧
    cursorBool ⟨[]⟩ = true :=
  ⟨by decide, rfl⟩

/-- Claim C1 counterexample: on the empty filter expression the compiler
returns the empty fragment, not a fragment prefixed with `WHERE `. -/
theorem empty_filter_empty_fragment :
    build_where_clause BaseSQLAdapter [] = .ok ("", []) ∧ ("" : String) ≠ "WHERE " :=
  ⟨by decide, by decide⟩

/-- Claim C2 counterexample: a filter key containing the base adapter's
placeholder token `%s` makes the fragment show more placeholder occurrences
than there are bind values. -/
theorem placeholder_in_key_miscount :
    build_where_clause BaseSQLAdapter [("a%sb", vi 1)] = .ok ("WHERE a%sb = %s", [vi 1]) ∧
    countPS "WHERE a%sb = %s".data ≠ ([vi 1] : List Value).length :=
  ⟨by decide, by decide⟩

/-- Claim C5 counterexample: a filter expression containing the key
`b__c__d` (two separators) fails, but with a `TypeError`, not a
`QueryError`, because the lexicographically earlier key `a__in` carries a
non-iterable value and its failure is raised first. -/
theorem multi_sep_type_error :
    build_where_clause BaseSQLAdapter [("a__in", vi 5), ("b__c__d", vi 1)] = .error .typeError ∧
    resultQueryError
      (build_where_clause BaseSQLAdapter [("a__in", vi 5), ("b__c__d", vi 1)]) = false :=
  ⟨by decide, by decide⟩

/-- Claim C4: a `column__in` filter key whose value is a sequence of n
elements compiles to `column IN (<placeholder>, ...)` with exactly one
placeholder per element, and the n element values are appended to the bind
list in sequence order. -/
theorem in_clause (A : SQLAdapter) (key column : String) (elems : List Scalar)
    (h : splitKey key = [column, "in"]) :
    buildClause A key (Value.vList elems) =
      .ok (column ++ " IN (" ++ pyJoin ", " (elems.map (fun _ => A.BINDING_OP)) ++ ")",
           elems.map Value.scalar) ∧
    (elems.map (fun _ => A.BINDING_OP)).length = elems.length := by
  constructor
  · simp [buildClause, h]
  · simp

theorem in_clause_witness :
    buildClause BaseSQLAdapter "id__in" (Value.vList [.sInt 1, .sInt 2, .sInt 10]) =
      .ok ("id IN (%s, %s, %s)", [vi 1, vi 2, vi 10]) ∧
    ([Scalar.sInt 1, .sInt 2, .sInt 10].map (fun _ => BaseSQLAdapter.BINDING_OP)).length = 3 :=
  in_clause BaseSQLAdapter "id__in" "id" [.sInt 1, .sInt 2, .sInt 10] (by decide)

/-- Claim C3: `column__startswith`, `column__endswith` and
`column__contains` filter keys compile to `column LIKE <placeholder>` with
the bind value getting `%` appended, prepended, or both, respectively. -/
theorem like_clauses (key1 col1 key2 col2 key3 col3 : String) (v : Value)
    (h1 : splitKey key1 = [col1, "startswith"])
    (h2 : splitKey key2 = [col2, "endswith"])
    (h3 : splitKey key3 = [col3, "contains"]) :
    buildClause BaseSQLAdapter key1 v =
      .ok (col1 ++ " LIKE " ++ "%s", [vs (pyStr v ++ "%")]) ∧
    buildClause BaseSQLAdapter key2 v =
      .ok (col2 ++ " LIKE " ++ "%s", [vs ("%" ++ pyStr v)]) ∧
    buildClause BaseSQLAdapter key3 v =
      .ok (col3 ++ " LIKE " ++ "%s", [vs ("%" ++ (pyStr v ++ "%"))]) := by
  refine ⟨?_, ?_, ?_⟩ <;>
    simp [buildClause, h1, h2, h3, BaseSQLAdapter, baseFilterOptions, vs, pyStr]

theorem like_clauses_witness :
    buildClause BaseSQLAdapter "name__startswith" (vs "Dan") =
      .ok ("name LIKE %s", [vs "Dan%"]) ∧
    buildClause BaseSQLAdapter "name__endswith" (vs "Dan") =
      .ok ("name LIKE %s", [vs "%Dan"]) ∧
    buildClause BaseSQLAdapter "name__contains" (vs "Dan") =
      .ok ("name LIKE %s", [vs "%Dan%"]) :=
  like_clauses "name__startswith" "name" "name__endswith" "name" "name__contains" "name"
    (vs "Dan") (by decide) (by decide) (by decide)

/-- Claim C6: a filter key with exactly one separator and an operator suffix
outside {lt, lte, gt, gte, startswith, endswith, contains, in} raises no
error: it degrades to the exact-match clause on the column part with the
value bound unchanged (shown for the base and SQLite adapters). -/
theorem unknown_op_fallback (key column op : String) (v : Value)
    (h : splitKey key = [column, op])
    (h1 : op ≠ "lt") (h2 : op ≠ "lte") (h3 : op ≠ "gt") (h4 : op ≠ "gte")
    (h5 : op ≠ "startswith") (h6 : op ≠ "endswith") (h7 : op ≠ "contains") (h8 : op ≠ "in") :
    buildClause BaseSQLAdapter key v = .ok (column ++ " = " ++ "%s", [v]) ∧
    buildClause SQLiteAdapter key v = .ok (column ++ " = " ++ "?", [v]) := by
  constructor <;>
    simp [buildClause, h, BaseSQLAdapter, SQLiteAdapter, baseFilterOptions,
      sqliteFilterOptions, h1, h2, h3, h4, h5, h6, h7, h8]

theorem unknown_op_fallback_witness :
    buildClause BaseSQLAdapter "name__iexact" (vs "Daniel") =
      .ok ("name = %s", [vs "Daniel"]) ∧
    buildClause SQLiteAdapter "name__iexact" (vs "Daniel") =
      .ok ("name = ?", [vs "Daniel"]) :=
  unknown_op_fallback "name__iexact" "name" "iexact" (vs "Daniel") (by decide) (by decide)
    (by decide) (by decide) (by decide) (by decide) (by decide) (by decide) (by decide)

/-- Claim C1 (amended to non-empty filter expressions): on a successful
compilation the fragment is `WHERE ` followed by one clause per filter key
joined with ` AND `, the keys are processed in lexicographically sorted
order, and any permutation of the same key/value mapping compiles to the
identical result. -/
theorem where_clause_sorted_deterministic (A : SQLAdapter)
    (kw1 kw2 : List (String × Value)) (frag : String) (binds : List Value)
    (hperm : kw1.Perm kw2) (hnd : (kw1.map Prod.fst).Nodup) (hne : kw1 ≠ [])
    (hok : build_where_clause A kw1 = .ok (frag, binds)) :
    build_where_clause A kw2 = .ok (frag, binds) ∧
    ∃ results : List (String × List Value),
      whereLoop A kw1 (sortKeys (kw1.map Prod.fst)) = .ok results ∧
      results.length = kw1.length ∧
      frag = "WHERE " ++ pyJoin " AND " (results.map Prod.fst) ∧
      binds = (results.map Prod.snd).flatten ∧
      List.Sorted (fun a b => strLe a b = true) (sortKeys (kw1.map Prod.fst)) ∧
      (sortKeys (kw1.map Prod.fst)).Perm (kw1.map Prod.fst) := by
  constructor
  · rw [← build_where_clause_eq_of_perm A hperm hnd]
    exact hok
  · rw [build_where_clause, if_neg hne] at hok
    cases hw : whereLoop A kw1 (sortKeys (kw1.map Prod.fst)) with
    | error e => rw [hw] at hok; simp at hok
    | ok results =>
      rw [hw] at hok
      simp only [Except.ok.injEq, Prod.mk.injEq] at hok
      refine ⟨results, rfl, ?_, hok.1.symm, hok.2.symm, sortKeys_sorted _, sortKeys_perm _⟩
      rw [whereLoop_length A kw1 _ results hw,
        (sortKeys_perm (kw1.map Prod.fst)).length_eq, List.length_map]

theorem where_clause_sorted_deterministic_witness :
    build_where_clause BaseSQLAdapter
        [("age__lt", vi 30), ("name", vs "Daniel"), ("id", vi 1)] =
      .ok ("WHERE age < %s AND id = %s AND name = %s", [vi 30, vi 1, vs "Daniel"]) ∧
    ∃ results : List (String × List Value),
      whereLoop BaseSQLAdapter [("id", vi 1), ("name", vs "Daniel"), ("age__lt", vi 30)]
        ["age__lt", "id", "name"] = .ok results ∧
      results.length = 3 ∧
      "WHERE age < %s AND id = %s AND name = %s" =
        "WHERE " ++ pyJoin " AND " (results.map Prod.fst) ∧
      [vi 30, vi 1, vs "Daniel"] = (results.map Prod.snd).flatten ∧
      List.Sorted (fun a b => strLe a b = true) (["age__lt", "id", "name"] : List String) ∧
      (["age__lt", "id", "name"] : List String).Perm ["id", "name", "age__lt"] :=
  where_clause_sorted_deterministic BaseSQLAdapter
    [("id", vi 1), ("name", vs "Daniel"), ("age__lt", vi 30)]
    [("age__lt", vi 30), ("name", vs "Daniel"), ("id", vi 1)]
    "WHERE age < %s AND id = %s AND name = %s" [vi 30, vi 1, vs "Daniel"]
    (by decide) (by decide) (by decide) (by decide)

/-- Claim C7: for every non-empty field mapping, the insert compiler emits
the column names in lexicographic order with one placeholder per column and
the bind values in the same sorted-column order, independently of the
mapping's original order. -/
theorem insert_sorted_columns (A : SQLAdapter) (table : String)
    (kw1 kw2 : List (String × Value))
    (hperm : kw1.Perm kw2) (hnd : (kw1.map Prod.fst).Nodup) (hne : kw1 ≠ []) :
    build_insert_query A table kw1 = build_insert_query A table kw2 ∧
    ∃ cols : List String,
      cols.Perm (kw1.map Prod.fst) ∧
      List.Sorted (fun a b => strLe a b = true) cols ∧
      cols ≠ [] ∧
      build_insert_query A table kw1 =
        ("INSERT INTO " ++ table ++ " (" ++ pyJoin ", " cols ++ ") VALUES (" ++
           pyJoin ", " (cols.map (fun _ => A.BINDING_OP)) ++ ")",
         cols.map (lookupVal kw1)) := by
  constructor
  · unfold build_insert_query
    rw [sortKeys_eq_of_perm (hperm.map Prod.fst), lookupVal_eq_of_perm hperm hnd]
  · refine ⟨sortKeys (kw1.map Prod.fst), sortKeys_perm _, sortKeys_sorted _, ?_, ?_⟩
    · intro hc
      apply hne
      have hlen := (sortKeys_perm (kw1.map Prod.fst)).length_eq
      rw [hc] at hlen
      simp only [List.length_nil, List.length_map] at hlen
      exact List.length_eq_zero.mp hlen.symm
    · simp only [build_insert_query, List.map_map]
      rfl

theorem insert_sorted_columns_witness :
    build_insert_query BaseSQLAdapter "people"
        [("name", vs "Daniel"), ("id", vi 1), ("age", vi 27)] =
      build_insert_query BaseSQLAdapter "people"
        [("age", vi 27), ("id", vi 1), ("name", vs "Daniel")] ∧
    ∃ cols : List String,
      cols.Perm ["name", "id", "age"] ∧
      List.Sorted (fun a b => strLe a b = true) cols ∧
      cols ≠ [] ∧
      build_insert_query BaseSQLAdapter "people"
          [("name", vs "Daniel"), ("id", vi 1), ("age", vi 27)] =
        ("INSERT INTO " ++ "people" ++ " (" ++ pyJoin ", " cols ++ ") VALUES (" ++
           pyJoin ", " (cols.map (fun _ => BaseSQLAdapter.BINDING_OP)) ++ ")",
         cols.map (lookupVal [("name", vs "Daniel"), ("id", vi 1), ("age", vi 27)])) :=
  insert_sorted_columns BaseSQLAdapter "people"
    [("name", vs "Daniel"), ("id", vi 1), ("age", vi 27)]
    [("age", vi 27), ("id", vi 1), ("name", vs "Daniel")]
    (by decide) (by decide) (by decide)

theorem splitSep_ne_nil (l : List Char) : splitSep l ≠ [] := by
  match l with
  | [] => simp [splitSep]
  | [c] => simp [splitSep]
  | a :: b :: rest =>
    simp only [splitSep]
    by_cases h : a = '_' ∧ b = '_'
    · simp [h]
    · rw [if_neg h]
      cases hs : splitSep (b :: rest) with
      | nil => simp
      | cons p ps => simp

theorem splitKey_ne_nil (s : String) : splitKey s ≠ [] := by
  unfold splitKey
  intro h
  exact splitSep_ne_nil s.data (List.map_eq_nil_iff.mp h)

theorem buildClause_multi_sep (A : SQLAdapter) (k : String) (v : Value)
    (h : 2 < (splitKey k).length) :
    buildClause A k v =
      .error (.queryError (k ++ " is not a supported lookup. Only one set of __ is allowed.")) := by
  unfold buildClause
  rw [if_pos h]

theorem buildClause_ok_or_query (A : SQLAdapter) (k : String) (v : Value)
    (hiter : ∀ column, splitKey k = [column, "in"] → ∀ i : Int, v ≠ Value.scalar (.sInt i)) :
    (∃ r, buildClause A k v = .ok r) ∨
    (∃ msg, buildClause A k v = .error (.queryError msg)) := by
  cases hb : buildClause A k v with
  | ok r => exact Or.inl ⟨r, rfl⟩
  | error e =>
    cases e with
    | queryError msg => exact Or.inr ⟨msg, rfl⟩
    | typeError =>
      exfalso
      by_cases hlen : 2 < (splitKey k).length
      · rw [buildClause_multi_sep A k v hlen] at hb
        cases hb
      · cases hs : splitKey k with
        | nil => exact absurd hs (splitKey_ne_nil k)
        | cons c rest =>
          cases rest with
          | nil => simp [buildClause, hs, hlen] at hb
          | cons op rest2 =>
            cases rest2 with
            | nil =>
              by_cases hin : op = "in"
              · subst hin
                cases v with
                | vList elems => simp [buildClause, hs, hlen] at hb
                | scalar s =>
                  cases s with
                  | sStr str => simp [buildClause, hs, hlen] at hb
                  | sInt i => exact hiter c hs i rfl
              · cases hfo : A.FILTER_OPTIONS op with
                | some fmt => simp [buildClause, hs, hlen, hin, hfo] at hb
                | none => simp [buildClause, hs, hlen, hin, hfo] at hb
            | cons c3 rest3 =>
              rw [hs] at hlen
              simp at hlen

theorem whereLoop_ok_mem (A : SQLAdapter) (kw : List (String × Value)) (keys : List String)
    (results : List (String × List Value)) (h : whereLoop A kw keys = .ok results) :
    ∀ k ∈ keys, ∃ r, buildClause A k (lookupVal kw k) = .ok r := by
  induction keys generalizing results with
  | nil => intro k hk; cases hk
  | cons k0 rest ih =>
    intro k hk
    simp only [whereLoop] at h
    cases hc : buildClause A k0 (lookupVal kw k0) with
    | error e => rw [hc] at h; simp at h
    | ok r =>
      rw [hc] at h
      cases hr : whereLoop A kw rest with
      | error e => rw [hr] at h; simp at h
      | ok rs =>
        rcases List.mem_cons.mp hk with rfl | hkt
        · exact ⟨r, hc⟩
        · exact ih rs hr k hkt

theorem whereLoop_fails_query (A : SQLAdapter) (kw : List (String × Value)) (keys : List String)
    (hall : ∀ k ∈ keys, (∃ r, buildClause A k (lookupVal kw k) = .ok r) ∨
      (∃ msg, buildClause A k (lookupVal kw k) = .error (.queryError msg)))
    (hbad : ∃ k ∈ keys, ∀ r, buildClause A k (lookupVal kw k) ≠ .ok r) :
    ∃ msg, whereLoop A kw keys = .error (.queryError msg) := by
  induction keys with
  | nil =>
    rcases hbad with ⟨k, hk, _⟩
    cases hk
  | cons k0 rest ih =>
    rcases hall k0 (List.mem_cons_self k0 rest) with ⟨r, hr⟩ | ⟨msg, hmsg⟩
    · rcases hbad with ⟨k2, hk2, hne⟩
      rcases List.mem_cons.mp hk2 with rfl | hk2t
      · exact absurd hr (hne r)
      · rcases ih (fun x hx => hall x (List.mem_cons_of_mem _ hx)) ⟨k2, hk2t, hne⟩ with ⟨m, hm⟩
        exact ⟨m, by simp [whereLoop, hr, hm]⟩
    · exact ⟨msg, by simp [whereLoop, hmsg]⟩

theorem lookupVal_mem {kw : List (String × Value)} {k : String} (h : k ∈ kw.map Prod.fst) :
    (k, lookupVal kw k) ∈ kw := by
  induction kw with
  | nil => cases h
  | cons p rest ih =>
    cases p with
    | mk a v =>
      by_cases hk : k = a
      · subst hk
        have hv : lookupVal ((k, v) :: rest) k = v := by
          simp [lookupVal, List.lookup]
        rw [hv]
        exact List.mem_cons_self _ _
      · have hmem : k ∈ rest.map Prod.fst := by
          simp only [List.map_cons, List.mem_cons] at h
          exact h.resolve_left hk
        have hba : (k == a) = false := beq_eq_false_iff_ne.mpr hk
        have hv : lookupVal ((a, v) :: rest) k = lookupVal rest k := by
          simp [lookupVal, List.lookup, hba]
        rw [hv]
        exact List.mem_cons_of_mem _ (ih hmem)

/-- Claim C5 (amended): a filter expression containing a key with more than
one separator never compiles to a result, and the failure is a `QueryError`
provided every `__in` key carries an iterable value (if an `__in` key with a
non-iterable value sorts before the offending key, its `TypeError` is
raised first instead). -/
theorem multi_sep_fails (A : SQLAdapter) (kw : List (String × Value))
    (hbad : ∃ k ∈ kw.map Prod.fst, 2 < (splitKey k).length)
    (hiter : ∀ p ∈ kw, ∀ column, splitKey p.1 = [column, "in"] →
      ∀ i : Int, p.2 ≠ Value.scalar (.sInt i)) :
    (∀ res, build_where_clause A kw ≠ .ok res) ∧
    ∃ msg, build_where_clause A kw = .error (.queryError msg) := by
  rcases hbad with ⟨kbad, hkbadmem, hkbadlen⟩
  have hne : kw ≠ [] := by
    intro hc
    subst hc
    cases hkbadmem
  have hbadsorted : kbad ∈ sortKeys (kw.map Prod.fst) :=
    ((sortKeys_perm (kw.map Prod.fst)).mem_iff).mpr hkbadmem
  have hall : ∀ k ∈ sortKeys (kw.map Prod.fst),
      (∃ r, buildClause A k (lookupVal kw k) = .ok r) ∨
      (∃ msg, buildClause A k (lookupVal kw k) = .error (.queryError msg)) := by
    intro k hk
    have hmem : k ∈ kw.map Prod.fst := ((sortKeys_perm (kw.map Prod.fst)).mem_iff).mp hk
    exact buildClause_ok_or_query A k (lookupVal kw k)
      (fun column hcol i => hiter (k, lookupVal kw k) (lookupVal_mem hmem) column hcol i)
  have hbadloop : ∃ k ∈ sortKeys (kw.map Prod.fst),
      ∀ r, buildClause A k (lookupVal kw k) ≠ .ok r := by
    refine ⟨kbad, hbadsorted, fun r hc => ?_⟩
    rw [buildClause_multi_sep A kbad (lookupVal kw kbad) hkbadlen] at hc
    cases hc
  rcases whereLoop_fails_query A kw (sortKeys (kw.map Prod.fst)) hall hbadloop with ⟨msg, hm⟩
  constructor
  · intro res hc
    rw [build_where_clause, if_neg hne, hm] at hc
    cases hc
  · exact ⟨msg, by rw [build_where_clause, if_neg hne, hm]⟩

theorem multi_sep_fails_witness :
    (∀ res, build_where_clause BaseSQLAdapter [("a__b__c", vi 1)] ≠ .ok res) ∧
    ∃ msg, build_where_clause BaseSQLAdapter [("a__b__c", vi 1)] = .error (.queryError msg) :=
  multi_sep_fails BaseSQLAdapter [("a__b__c", vi 1)]
    ⟨"a__b__c", by decide, by decide⟩
    (by
      intro p hp column hcol i
      simp only [List.mem_singleton] at hp
      subst hp
      rw [show splitKey "a__b__c" = ["a", "b", "c"] from by decide] at hcol
      simp at hcol)

theorem countPS_append (a b : List Char)
    (h : a.getLast? ≠ some '%' ∨ b.head? ≠ some 's') :
    countPS (a ++ b) = countPS a + countPS b := by
  induction a with
  | nil => simp [countPS]
  | cons c a' ih =>
    cases a' with
    | nil =>
      cases b with
      | nil => simp [countPS]
      | cons d b' =>
        have hcd : ¬ (c = '%' ∧ d = 's') := by
          rintro ⟨hc, hd⟩
          rcases h with h | h
          · exact h (by simp [hc])
          · exact h (by simp [hd])
        simp [countPS, hcd]
    | cons d a'' =>
      have h' : (d :: a'').getLast? ≠ some '%' ∨ b.head? ≠ some 's' := by
        rcases h with h | h
        · left; rwa [List.getLast?_cons_cons] at h
        · right; exact h
      have ih' := ih h'
      simp only [List.cons_append] at ih' ⊢
      simp only [countPS] at ih' ⊢
      omega

theorem countPS_zero (a : List Char) (h : '%' ∉ a) : countPS a = 0 := by
  induction a with
  | nil => rfl
  | cons c a' ih =>
    cases a' with
    | nil => rfl
    | cons d a'' =>
      have hc : ¬ (c = '%' ∧ d = 's') := by
        rintro ⟨hc, _⟩
        exact h (hc ▸ List.mem_cons_self c _)
      have h' : '%' ∉ (d :: a'') := fun hm => h (List.mem_cons_of_mem _ hm)
      simp [countPS, hc, ih h']

theorem splitSep_subset : ∀ (l : List Char), ∀ part ∈ splitSep l, ∀ x ∈ part, x ∈ l
  | [] => by simp [splitSep]
  | [c] => by simp [splitSep]
  | a :: b :: rest => by
    intro part hp x hx
    by_cases h : a = '_' ∧ b = '_'
    · simp only [splitSep] at hp
      rw [if_pos h] at hp
      rcases List.mem_cons.mp hp with rfl | hp2
      · cases hx
      · have := splitSep_subset rest part hp2 x hx
        exact List.mem_cons_of_mem _ (List.mem_cons_of_mem _ this)
    · simp only [splitSep] at hp
      rw [if_neg h] at hp
      cases hs : splitSep (b :: rest) with
      | nil => exact absurd hs (splitSep_ne_nil _)
      | cons p ps =>
        rw [hs] at hp
        rcases List.mem_cons.mp hp with rfl | hp2
        · rcases List.mem_cons.mp hx with rfl | hx2
          · exact List.mem_cons_self _ _
          · have := splitSep_subset (b :: rest) p (by rw [hs]; exact List.mem_cons_self _ _) x hx2
            exact List.mem_cons_of_mem _ this
        · have := splitSep_subset (b :: rest) part
            (by rw [hs]; exact List.mem_cons_of_mem _ hp2) x hx
          exact List.mem_cons_of_mem _ this

theorem splitKey_parts_subset (k : String) :
    ∀ part ∈ splitKey k, ∀ x ∈ part.data, x ∈ k.data := by
  intro part hp x hx
  unfold splitKey at hp
  rcases List.mem_map.mp hp with ⟨p, hpmem, rfl⟩
  exact splitSep_subset k.data p hpmem x hx

theorem countPS_replicate (n : Nat) :
    countPS (pyJoin ", " (List.replicate n "%s")).data = n := by
  induction n with
  | zero => rfl
  | succ m ih =>
    cases m with
    | zero => rfl
    | succ m2 =>
      simp only [List.replicate_succ, pyJoin] at ih ⊢
      rw [data_append, data_append,
        countPS_append _ _ (Or.inl (by decide)),
        countPS_append _ _ (Or.inl (by decide))]
      rw [ih]
      have h1 : countPS "%s".data = 1 := rfl
      have h2 : countPS ", ".data = 0 := rfl
      rw [h1, h2]
      omega

theorem countQ_replicate (n : Nat) :
    (pyJoin ", " (List.replicate n "?")).data.count '?' = n := by
  induction n with
  | zero => rfl
  | succ m ih =>
    cases m with
    | zero => rfl
    | succ m2 =>
      simp only [List.replicate_succ, pyJoin] at ih ⊢
      rw [data_append, data_append, List.count_append, List.count_append]
      rw [ih]
      have h1 : ("?".data).count '?' = 1 := rfl
      have h2 : (", ".data).count '?' = 0 := rfl
      rw [h1, h2]
      omega

theorem count_col_concrete (cdata tail : List Char) (hc : '%' ∉ cdata)
    (hh : tail.head? ≠ some 's') :
    countPS (cdata ++ tail) = countPS tail := by
  rw [countPS_append _ _ (Or.inr hh), countPS_zero cdata hc]
  omega

theorem countQ_col (cdata tail : List Char) (hc : '?' ∉ cdata) :
    (cdata ++ tail).count '?' = tail.count '?' := by
  rw [List.count_append, List.count_eq_zero.mpr hc]
  omega

theorem head?_append_some {l1 l2 : List Char} {c : Char} (h : l1.head? = some c) :
    (l1 ++ l2).head? = some c := by
  cases l1 with
  | nil => cases h
  | cons a t => simpa using h

theorem buildClause_count_base (k : String) (v : Value) (cl : String) (bs : List Value)
    (hk : '%' ∉ k.data) (hok : buildClause BaseSQLAdapter k v = .ok (cl, bs)) :
    countPS cl.data = bs.length := by
  have hparts : ∀ part ∈ splitKey k, '%' ∉ part.data :=
    fun part hp hx => hk (splitKey_parts_subset k part hp '%' hx)
  by_cases hlen : 2 < (splitKey k).length
  · rw [buildClause_multi_sep BaseSQLAdapter k v hlen] at hok
    cases hok
  · cases hs : splitKey k with
    | nil => exact absurd hs (splitKey_ne_nil k)
    | cons c rest =>
      have hc : '%' ∉ c.data := hparts c (by rw [hs]; exact List.mem_cons_self _ _)
      cases rest with
      | nil =>
        simp [buildClause, hs, hlen, BaseSQLAdapter] at hok
        rcases hok with ⟨hcl, hbs⟩
        subst hcl
        subst hbs
        rw [data_append, data_append, List.append_assoc,
          count_col_concrete c.data _ hc (by decide), List.length_singleton]
        decide
      | cons op rest2 =>
        cases rest2 with
        | cons c3 rest3 =>
          rw [hs] at hlen
          simp at hlen
        | nil =>
          by_cases hin : op = "in"
          · subst hin
            cases v with
            | scalar s =>
              cases s with
              | sInt i => simp [buildClause, hs, hlen] at hok
              | sStr str =>
                simp [buildClause, hs, hlen, BaseSQLAdapter] at hok
                rcases hok with ⟨hcl, hbs⟩
                subst hcl
                subst hbs
                rw [data_append, data_append, data_append, List.append_assoc,
                  List.append_assoc,
                  count_col_concrete c.data _ hc
                    (by rw [head?_append_some (show (" IN (".data).head? = some ' ' from rfl)]
                        decide),
                  countPS_append _ _ (Or.inl (by decide)),
                  countPS_append _ _ (Or.inr (by decide)),
                  countPS_replicate str.length,
                  show countPS " IN (".data = 0 from rfl,
                  show countPS ")".data = 0 from rfl, List.length_map,
                  show str.length = str.data.length from rfl]
                omega
            | vList elems =>
              simp [buildClause, hs, hlen, BaseSQLAdapter] at hok
              rcases hok with ⟨hcl, hbs⟩
              subst hcl
              subst hbs
              rw [data_append, data_append, data_append, List.append_assoc,
                List.append_assoc,
                count_col_concrete c.data _ hc
                  (by rw [head?_append_some (show (" IN (".data).head? = some ' ' from rfl)]
                      decide),
                countPS_append _ _ (Or.inl (by decide)),
                countPS_append _ _ (Or.inr (by decide)),
                countPS_replicate elems.length,
                show countPS " IN (".data = 0 from rfl,
                show countPS ")".data = 0 from rfl, List.length_map]
              omega
          · cases hfo : baseFilterOptions op with
            | none =>
              simp [buildClause, hs, hlen, hin, hfo, BaseSQLAdapter] at hok
              rcases hok with ⟨hcl, hbs⟩
              subst hcl
              subst hbs
              rw [data_append, data_append, List.append_assoc,
                count_col_concrete c.data _ hc (by decide), List.length_singleton]
              decide
            | some fmt =>
              simp [buildClause, hs, hlen, hin, hfo, BaseSQLAdapter] at hok
              rcases hok with ⟨hcl, hbs⟩
              subst hcl
              subst hbs
              unfold baseFilterOptions at hfo
              repeat' split at hfo
              all_goals first
                | exact absurd hfo (fun h => Option.noConfusion h)
                | (injection hfo with hf
                   subst hf
                   simp only []
                   rw [data_append, data_append, List.append_assoc,
                     count_col_concrete c.data _ hc (by decide), List.length_singleton]
                   decide)

theorem buildClause_count_sqlite (k : String) (v : Value) (cl : String) (bs : List Value)
    (hk : '?' ∉ k.data) (hok : buildClause SQLiteAdapter k v = .ok (cl, bs)) :
    cl.data.count '?' = bs.length := by
  have hparts : ∀ part ∈ splitKey k, '?' ∉ part.data :=
    fun part hp hx => hk (splitKey_parts_subset k part hp '?' hx)
  by_cases hlen : 2 < (splitKey k).length
  · rw [buildClause_multi_sep SQLiteAdapter k v hlen] at hok
    cases hok
  · cases hs : splitKey k with
    | nil => exact absurd hs (splitKey_ne_nil k)
    | cons c rest =>
      have hc : '?' ∉ c.data := hparts c (by rw [hs]; exact List.mem_cons_self _ _)
      cases rest with
      | nil =>
        simp [buildClause, hs, hlen, SQLiteAdapter] at hok
        rcases hok with ⟨hcl, hbs⟩
        subst hcl
        subst hbs
        rw [data_append, data_append, List.append_assoc, countQ_col c.data _ hc,
          List.length_singleton]
        decide
      | cons op rest2 =>
        cases rest2 with
        | cons c3 rest3 =>
          rw [hs] at hlen
          simp at hlen
        | nil =>
          by_cases hin : op = "in"
          · subst hin
            cases v with
            | scalar s =>
              cases s with
              | sInt i => simp [buildClause, hs, hlen] at hok
              | sStr str =>
                simp [buildClause, hs, hlen, SQLiteAdapter] at hok
                rcases hok with ⟨hcl, hbs⟩
                subst hcl
                subst hbs
                rw [data_append, data_append, data_append, List.append_assoc,
                  List.append_assoc, countQ_col c.data _ hc, List.count_append,
                  List.count_append, countQ_replicate str.length,
                  show (" IN (".data).count '?' = 0 from rfl,
                  show (")".data).count '?' = 0 from rfl, List.length_map,
                  show str.length = str.data.length from rfl]
                omega
            | vList elems =>
              simp [buildClause, hs, hlen, SQLiteAdapter] at hok
              rcases hok with ⟨hcl, hbs⟩
              subst hcl
              subst hbs
              rw [data_append, data_append, data_append, List.append_assoc,
                List.append_assoc, countQ_col c.data _ hc, List.count_append,
                List.count_append, countQ_replicate elems.length,
                show (" IN (".data).count '?' = 0 from rfl,
                show (")".data).count '?' = 0 from rfl, List.length_map]
              omega
          · cases hfo : sqliteFilterOptions op with
            | none =>
              simp [buildClause, hs, hlen, hin, hfo, SQLiteAdapter] at hok
              rcases hok with ⟨hcl, hbs⟩
              subst hcl
              subst hbs
              rw [data_append, data_append, List.append_assoc, countQ_col c.data _ hc,
                List.length_singleton]
              decide
            | some fmt =>
              simp [buildClause, hs, hlen, hin, hfo, SQLiteAdapter] at hok
              rcases hok with ⟨hcl, hbs⟩
              subst hcl
              subst hbs
              unfold sqliteFilterOptions at hfo
              repeat' split at hfo
              all_goals first
                | exact absurd hfo (fun h => Option.noConfusion h)
                | (injection hfo with hf
                   subst hf
                   simp only []
                   rw [data_append, data_append, List.append_assoc, countQ_col c.data _ hc,
                     List.length_singleton]
                   decide)
                | (injection hfo with hf
                   subst hf
                   simp only []
                   rw [data_append, data_append, data_append, List.append_assoc,
                     List.append_assoc, countQ_col c.data _ hc, List.length_singleton]
                   decide)

theorem whereLoop_count_base (kw : List (String × Value)) (keys : List String)
    (results : List (String × List Value))
    (hkeys : ∀ k ∈ keys, '%' ∉ k.data)
    (h : whereLoop BaseSQLAdapter kw keys = .ok results) :
    ∀ r ∈ results, countPS r.1.data = r.2.length := by
  induction keys generalizing results with
  | nil =>
    simp only [whereLoop, Except.ok.injEq] at h
    subst h
    intro r hr
    cases hr
  | cons k0 rest ih =>
    intro r hr
    simp only [whereLoop] at h
    cases hc : buildClause BaseSQLAdapter k0 (lookupVal kw k0) with
    | error e => rw [hc] at h; simp at h
    | ok r0 =>
      rw [hc] at h
      cases hw : whereLoop BaseSQLAdapter kw rest with
      | error e => rw [hw] at h; simp at h
      | ok rs =>
        rw [hw] at h
        simp only [Except.ok.injEq] at h
        subst h
        rcases List.mem_cons.mp hr with rfl | hrt
        · exact buildClause_count_base k0 (lookupVal kw k0) r.1 r.2
            (hkeys k0 (List.mem_cons_self _ _)) hc
        · exact ih rs (fun k hk => hkeys k (List.mem_cons_of_mem _ hk)) hw r hrt

theorem whereLoop_count_sqlite (kw : List (String × Value)) (keys : List String)
    (results : List (String × List Value))
    (hkeys : ∀ k ∈ keys, '?' ∉ k.data)
    (h : whereLoop SQLiteAdapter kw keys = .ok results) :
    ∀ r ∈ results, r.1.data.count '?' = r.2.length := by
  induction keys generalizing results with
  | nil =>
    simp only [whereLoop, Except.ok.injEq] at h
    subst h
    intro r hr
    cases hr
  | cons k0 rest ih =>
    intro r hr
    simp only [whereLoop] at h
    cases hc : buildClause SQLiteAdapter k0 (lookupVal kw k0) with
    | error e => rw [hc] at h; simp at h
    | ok r0 =>
      rw [hc] at h
      cases hw : whereLoop SQLiteAdapter kw rest with
      | error e => rw [hw] at h; simp at h
      | ok rs =>
        rw [hw] at h
        simp only [Except.ok.injEq] at h
        subst h
        rcases List.mem_cons.mp hr with rfl | hrt
        · exact buildClause_count_sqlite k0 (lookupVal kw k0) r.1 r.2
            (hkeys k0 (List.mem_cons_self _ _)) hc
        · exact ih rs (fun k hk => hkeys k (List.mem_cons_of_mem _ hk)) hw r hrt

theorem countPS_join_clauses (results : List (String × List Value))
    (hr : ∀ r ∈ results, countPS r.1.data = r.2.length) :
    countPS (pyJoin " AND " (results.map Prod.fst)).data =
      ((results.map Prod.snd).flatten).length := by
  induction results with
  | nil => rfl
  | cons r rest ih =>
    cases rest with
    | nil =>
      simp only [List.map_cons, List.map_nil, pyJoin, List.flatten, List.append_nil]
      exact hr r (List.mem_cons_self _ _)
    | cons r2 rest2 =>
      simp only [List.map_cons, pyJoin] at ih ⊢
      rw [data_append, data_append,
        countPS_append _ _
          (Or.inr (by rw [head?_append_some (show (" AND ".data).head? = some ' ' from rfl)]
                      decide)),
        countPS_append _ _ (Or.inl (by decide)),
        show countPS " AND ".data = 0 from rfl]
      rw [hr r (List.mem_cons_self _ _),
        ih (fun x hx => hr x (List.mem_cons_of_mem _ hx))]
      simp only [List.flatten, List.length_append]
      omega

theorem countQ_join_clauses (results : List (String × List Value))
    (hr : ∀ r ∈ results, r.1.data.count '?' = r.2.length) :
    (pyJoin " AND " (results.map Prod.fst)).data.count '?' =
      ((results.map Prod.snd).flatten).length := by
  induction results with
  | nil => rfl
  | cons r rest ih =>
    cases rest with
    | nil =>
      simp only [List.map_cons, List.map_nil, pyJoin, List.flatten, List.append_nil]
      exact hr r (List.mem_cons_self _ _)
    | cons r2 rest2 =>
      simp only [List.map_cons, pyJoin] at ih ⊢
      rw [data_append, data_append, List.count_append, List.count_append,
        show (" AND ".data).count '?' = 0 from rfl]
      rw [hr r (List.mem_cons_self _ _),
        ih (fun x hx => hr x (List.mem_cons_of_mem _ hx))]
      simp only [List.flatten, List.length_append]
      omega

/-- Claim C2 (amended to filter keys that do not contain the placeholder
token): on a successful compilation, the number of placeholder occurrences
in the fragment equals the length of the bind list, for the base (`%s`) and
SQLite (`?`) adapters. -/
theorem bind_count_matches_placeholders (kw : List (String × Value))
    (frag1 frag2 : String) (binds1 binds2 : List Value)
    (hkeys : ∀ k ∈ kw.map Prod.fst, ('%' ∉ k.data) ∧ ('?' ∉ k.data))
    (hbase : build_where_clause BaseSQLAdapter kw = .ok (frag1, binds1))
    (hsqlite : build_where_clause SQLiteAdapter kw = .ok (frag2, binds2)) :
    countPS frag1.data = binds1.length ∧ frag2.data.count '?' = binds2.length := by
  by_cases hne : kw = []
  · subst hne
    rw [show build_where_clause BaseSQLAdapter [] = Except.ok ("", []) from rfl,
      Except.ok.injEq, Prod.mk.injEq] at hbase
    rw [show build_where_clause SQLiteAdapter [] = Except.ok ("", []) from rfl,
      Except.ok.injEq, Prod.mk.injEq] at hsqlite
    obtain ⟨rfl, rfl⟩ := hbase
    obtain ⟨rfl, rfl⟩ := hsqlite
    exact ⟨rfl, rfl⟩
  · have hsortmem : ∀ k ∈ sortKeys (kw.map Prod.fst), k ∈ kw.map Prod.fst :=
      fun k hk => ((sortKeys_perm _).mem_iff).mp hk
    rw [build_where_clause, if_neg hne] at hbase hsqlite
    constructor
    · cases hw : whereLoop BaseSQLAdapter kw (sortKeys (kw.map Prod.fst)) with
      | error e => rw [hw] at hbase; simp at hbase
      | ok results =>
        rw [hw] at hbase
        simp only [Except.ok.injEq, Prod.mk.injEq] at hbase
        rcases hbase with ⟨h1, h2⟩
        subst h1
        subst h2
        have hcounts := whereLoop_count_base kw _ results
          (fun k hk => (hkeys k (hsortmem k hk)).1) hw
        rw [data_append, countPS_append _ _ (Or.inl (by decide)),
          show countPS "WHERE ".data = 0 from rfl,
          countPS_join_clauses results hcounts]
        omega
    · cases hw : whereLoop SQLiteAdapter kw (sortKeys (kw.map Prod.fst)) with
      | error e => rw [hw] at hsqlite; simp at hsqlite
      | ok results =>
        rw [hw] at hsqlite
        simp only [Except.ok.injEq, Prod.mk.injEq] at hsqlite
        rcases hsqlite with ⟨h1, h2⟩
        subst h1
        subst h2
        have hcounts := whereLoop_count_sqlite kw _ results
          (fun k hk => (hkeys k (hsortmem k hk)).2) hw
        rw [data_append, List.count_append,
          show ("WHERE ".data).count '?' = 0 from rfl,
          countQ_join_clauses results hcounts]
        omega

theorem bind_count_matches_placeholders_witness :
    countPS "WHERE age < %s AND id IN (%s, %s, %s) AND name LIKE %s".data =
      ([vi 30, vi 1, vi 2, vi 10, vs "Dan%"] : List Value).length ∧
    ("WHERE age < ? AND id IN (?, ?, ?) AND name LIKE ? ESCAPE \x27\x5c\x27".data).count '?' =
      ([vi 30, vi 1, vi 2, vi 10, vs "Dan%"] : List Value).length :=
  bind_count_matches_placeholders
    [("age__lt", vi 30), ("id__in", vl [.sInt 1, .sInt 2, .sInt 10]),
      ("name__startswith", vs "Dan")]
    "WHERE age < %s AND id IN (%s, %s, %s) AND name LIKE %s"
    "WHERE age < ? AND id IN (?, ?, ?) AND name LIKE ? ESCAPE \x27\x5c\x27"
    [vi 30, vi 1, vi 2, vi 10, vs "Dan%"] [vi 30, vi 1, vi 2, vi 10, vs "Dan%"]
    (by decide) (by decide) (by decide)

/-!
Validation of the embedding against the expectations recorded in the
repository's own test suite (`tests.py`, `BaseSQLAdapterTestCase`).
-/

theorem tests_py_where_exact :
    build_where_clause BaseSQLAdapter [("id", vi 1), ("name", vs "Daniel")] =
      .ok ("WHERE id = %s AND name = %s", [vi 1, vs "Daniel"]) := by decide

theorem tests_py_where_like :
    build_where_clause BaseSQLAdapter [("name__startswith", vs "Daniel")] =
      .ok ("WHERE name LIKE %s", [vs "Daniel%"]) ∧
    build_where_clause BaseSQLAdapter [("name__endswith", vs "Daniel")] =
      .ok ("WHERE name LIKE %s", [vs "%Daniel"]) ∧
    build_where_clause BaseSQLAdapter [("name__contains", vs "Daniel")] =
      .ok ("WHERE name LIKE %s", [vs "%Daniel%"]) := by
  refine ⟨by decide, by decide, by decide⟩

theorem tests_py_where_in :
    build_where_clause BaseSQLAdapter [("id__in", vl [.sInt 1, .sInt 2, .sInt 10])] =
      .ok ("WHERE id IN (%s, %s, %s)", [vi 1, vi 2, vi 10]) := by decide

theorem tests_py_insert :
    build_insert_query BaseSQLAdapter "people"
        [("name", vs "Daniel"), ("id", vi 1), ("age", vi 27)] =
      ("INSERT INTO people (age, id, name) VALUES (%s, %s, %s)", [vi 27, vi 1, vs "Daniel"]) := by
  decide

theorem tests_py_update :
    build_update_query BaseSQLAdapter "people" (vi 2) [("name", vs "Daniel"), ("age", vi 27)] =
      ("UPDATE people SET age = %s, name = %s WHERE id = %s", [vi 27, vs "Daniel", vi 2]) := by
  decide

theorem tests_py_split :
    splitKey "a__b__c" = ["a", "b", "c"] ∧ splitKey "a___b" = ["a", "_b"] ∧
    splitKey "id" = ["id"] := by
  refine ⟨by decide, by decide, by decide⟩
